import Mathlib

/-!
Verification of the query interpretation and retrieval orchestration engine of
the Dectective-X prototype (src/prototype/src/ai/query_engine.py and its
collaborators).  The Python code is shallowly embedded: pure helpers become
Lean functions, database reads and external collaborators (dateparser, the
similarity index, the relational store) are passed in as explicit inputs
standing for the values they would return.  Datetimes are modelled as integer
microsecond counts; the reporting timezone constant LOCAL_TIMEZONE is imported
by the engine from src/config.py but is not defined there, so every function
that needs it takes the fixed utc offset as an explicit parameter.
-/

namespace DetectiveX

/-! ### Lexicon (query_engine.py lines 26-98, config.py lines 11-19) -/

def STOP_WORDS : List String :=
  ["the", "a", "an", "is", "are", "to", "for", "about", "show", "me", "list",
   "of", "any", "there", "where", "what", "which", "who", "when", "and", "or",
   "with", "from", "last", "day", "days", "week", "weeks", "month", "months",
   "information", "info", "messages", "message", "calls", "call", "person",
   "people", "contact", "contacts", "location", "locations", "visit",
   "visited", "on", "in", "after", "before", "between", "range", "today",
   "yesterday", "recent", "recently", "this", "that", "these", "those",
   "someone", "anyone", "everyone", "tell", "give", "details", "report"]

def LOCATION_TERMS : List String :=
  ["location", "locations", "visit", "visited", "where", "travel", "movement", "route"]

def CALL_TERMS : List String :=
  ["call", "called", "spoke", "dial", "conversation"]

def MESSAGE_TERMS : List String :=
  ["message", "messages", "chat", "text", "information", "topic", "note"]

def GRAPH_TERMS : List String :=
  ["connection", "connections", "network", "relationship", "link"]

def FOREIGN_TERMS : List String :=
  ["foreign", "international", "non-indian", "overseas"]

def SUSPICIOUS_TERMS : List String :=
  ["btc", "bitcoin", "wallet", "crypto", "transfer", "cash", "broker"]

/-! ### String helpers mirroring the Python primitives -/

/-- Python str.lower on one character, for the ASCII range the engine's
keyword matching operates over. -/
def char_lower (c : Char) : Char :=
  if 'A' ≤ c && c ≤ 'Z' then Char.ofNat (c.toNat + 32) else c

/-- Python str.lower, character by character. -/
def str_lower (s : String) : String :=
  String.mk (s.toList.map char_lower)

/-- Python str.strip with no argument. -/
def str_trim (s : String) : String :=
  String.mk (((s.toList.dropWhile Char.isWhitespace).reverse.dropWhile Char.isWhitespace).reverse)

/-- Maximal runs of characters satisfying p, accumulator-reversed. -/
def char_runs (p : Char → Bool) : List Char → List Char → List (List Char)
  | [], acc => if acc.isEmpty then [] else [acc.reverse]
  | c :: rest, acc =>
    if p c then char_runs p rest (c :: acc)
    else if acc.isEmpty then char_runs p rest []
    else acc.reverse :: char_runs p rest []

/-- Python str.split() with no argument: split on whitespace, dropping empty
fragments. -/
def splitWs (s : String) : List String :=
  (char_runs (fun c => !c.isWhitespace) s.toList []).map (fun r => String.mk r)

/-- Python substring containment, needle in haystack. -/
def contains_sub (hay needle : String) : Bool :=
  let h := hay.toList
  let n := needle.toList
  (List.range (h.length + 1)).any (fun i => n.isPrefixOf (h.drop i))

def isAlnumLower (c : Char) : Bool :=
  (('a' ≤ c) && (c ≤ 'z')) || (('0' ≤ c) && (c ≤ '9'))

/-- re.findall of [a-z0-9]{3,} over an (already lowercased) string: the maximal
alphanumeric runs of length at least three. -/
def tokenize (s : String) : List String :=
  ((char_runs isAlnumLower s.toList []).filter (fun r => r.length ≥ 3)).map
    (fun r => String.mk r)

/-! ### Contacts and person detection (query_engine.py lines 704-754) -/

/-- Row of the contacts table (storage/database.py lines 39-55); only the
columns the engine reads. -/
structure Contact where
  contact_id : Nat
  name : Option String
  phone_number : Option String
  country : Option String
deriving DecidableEq

/-- _contact_tokens: lowercase full name, name parts of length at least 3,
lowercase phone literal, digits-only phone when at least 6 digits.  The empty
string is falsy in Python, hence the emptiness guards. -/
def contact_tokens : Option Contact → List String
  | none => []
  | some c =>
    let nameTokens :=
      match c.name with
      | some nm =>
        if nm = "" then []
        else
          let lowered := str_lower nm
          lowered :: (splitWs lowered).filter (fun part => part.length ≥ 3)
      | none => []
    let phoneTokens :=
      match c.phone_number with
      | some ph =>
        if ph = "" then []
        else
          let phone := str_lower ph
          let digits := phone.toList.filter Char.isDigit
          phone :: (if digits.length ≥ 6 then [String.mk digits] else [])
      | none => []
    nameTokens ++ phoneTokens

/-- _detect_person_ids: a contact matches when any nonempty token is a
substring of the lowercased query. -/
def detect_person_ids (query_lower : String) (contacts : List Contact) : List Nat :=
  contacts.filterMap (fun c =>
    if (contact_tokens (some c)).any (fun tok => tok ≠ "" && contains_sub query_lower tok)
    then some c.contact_id else none)

/-- The contact_lookup dict built in answer: contact_id to contact, a later
duplicate id overwriting an earlier one exactly as dict construction does. -/
def contact_lookup (contacts : List Contact) (cid : Nat) : Option Contact :=
  contacts.foldl (fun acc c => if c.contact_id = cid then some c else acc) none

/-- _match_contacts_by_name: per supplied name, its token set (alphanumeric
runs of length at least 3 plus the whole stripped lowercase name); skipped
when the stripped name is empty. -/
def name_token_set (name : String) : Option (List String) :=
  let lowered := str_lower (str_trim name)
  if lowered = "" then none
  else some (lowered :: tokenize lowered)

def match_contacts_by_name (names : List String) (contacts : List Contact) : List Nat :=
  let targets := names.filterMap name_token_set
  if targets.isEmpty then []
  else
    contacts.filterMap (fun c =>
      let ctoks := contact_tokens (some c)
      if ctoks.isEmpty then none
      else if targets.any (fun ts => ts.any (fun t => ctoks.contains t)) then
        some c.contact_id
      else none)

/-! ### Topic terms (query_engine.py lines 670-689) -/

/-- _extract_topic_terms, with Python set operations modelled on lists up to
membership: tokenize, drop stop words, add the suspicious terms found in the
query, drop the foreign/location/call/graph keyword sets, drop every token of
every matched person. -/
def extract_topic_terms (query_lower : String) (suspicious_terms : List String)
    (contacts : List Contact) (person_ids : List Nat) : List String :=
  let tokens := tokenize query_lower
  let tokens := tokens.filter (fun t => !STOP_WORDS.contains t)
  let tokens := tokens ++ suspicious_terms.filter (fun t => !tokens.contains t)
  let tokens := tokens.filter (fun t => !FOREIGN_TERMS.contains t)
  let tokens := tokens.filter (fun t => !LOCATION_TERMS.contains t)
  let tokens := tokens.filter (fun t => !CALL_TERMS.contains t)
  let tokens := tokens.filter (fun t => !GRAPH_TERMS.contains t)
  let person_names :=
    (person_ids.map (fun cid => contact_tokens (contact_lookup contacts cid))).flatten
  tokens.filter (fun t => !person_names.contains t)

/-- The topic-term set the answer method builds before the plan merge
(query_engine.py lines 136-139): person detection, suspicious terms found as
substrings, then extraction. -/
def answer_topic_terms (query : String) (contacts : List Contact) : List String :=
  let query_lower := str_lower query
  let person_ids := detect_person_ids query_lower contacts
  let suspicious := SUSPICIOUS_TERMS.filter (fun term => contains_sub query_lower term)
  extract_topic_terms query_lower suspicious contacts person_ids

/-! ### Heuristic category flags (query_engine.py lines 143-148) -/

def heuristic_include_locations (query_lower : String) : Bool :=
  (splitWs query_lower).any (fun w => LOCATION_TERMS.contains w)
    || contains_sub query_lower "location"

def heuristic_include_calls (query_lower : String) : Bool :=
  (splitWs query_lower).any (fun w => CALL_TERMS.contains w)
    || contains_sub query_lower "call"

def heuristic_include_graph (query_lower : String) : Bool :=
  (splitWs query_lower).any (fun w => GRAPH_TERMS.contains w)

/-- Line 146: include_messages is True when calls or locations matched,
otherwise decided by message keywords. -/
def heuristic_include_messages (query_lower : String) : Bool :=
  if heuristic_include_calls query_lower || heuristic_include_locations query_lower then true
  else (splitWs query_lower).any (fun w => MESSAGE_TERMS.contains w)

/-- Lines 146-148: the ternary plus the force on messages when no category is
enabled. -/
def heuristic_include_messages_final (query_lower : String) : Bool :=
  let m := heuristic_include_messages query_lower
  if !m && !heuristic_include_calls query_lower && !heuristic_include_locations query_lower
  then true else m

/-! ### Datetimes and range normalization (query_engine.py lines 640-667)

A Python datetime is an instant; aware values are modelled by their UTC
microsecond count, naive values by their wall-clock microsecond count.  The
reporting timezone is a fixed offset passed as the parameter off. -/

def usPerDay : Int := 86400000000

inductive PyDatetime
  | naive (wall : Int)
  | aware (instant : Int)
deriving DecidableEq

/-- replace of tzinfo by LOCAL_TIMEZONE on a naive value, identity on an
aware one; yields the UTC instant. -/
def attach_local (off : Int) : PyDatetime → Int
  | PyDatetime.naive w => w - off
  | PyDatetime.aware i => i

/-- Local wall clock of a UTC instant. -/
def local_wall (off instant : Int) : Int := instant + off

/-- replace of hour, minute, second, microsecond by zero on a local wall
clock: floor to the local midnight. -/
def floor_day (w : Int) : Int := w - w % usPerDay

/-- The core of _normalize_range once both bounds are present, as UTC
instants: widen each bound to the start resp. end of its local calendar day,
swap if inverted, convert back to UTC. -/
def norm2 (off s e : Int) : Option Int × Option Int :=
  let local_start := floor_day (local_wall off s)
  let local_end := floor_day (local_wall off e) + (usPerDay - 1)
  let p := if local_start > local_end then (local_end, local_start) else (local_start, local_end)
  (some (p.1 - off), some (p.2 - off))

/-- _normalize_range: attach the local timezone to naive bounds, copy a single
present bound to the missing side, then widen, swap and convert. -/
def normalize_range (off : Int) : Option PyDatetime → Option PyDatetime → Option Int × Option Int
  | none, none => (none, none)
  | some s, none => let i := attach_local off s; norm2 off i i
  | none, some e => let i := attach_local off e; norm2 off i i
  | some s, some e => norm2 off (attach_local off s) (attach_local off e)

/-- _timestamp_in_range on UTC instants. -/
def timestamp_in_range (t : Int) (range : Option Int × Option Int) : Bool :=
  (match range.1 with | some s => decide (s ≤ t) | none => true)
    && (match range.2 with | some e => decide (t ≤ e) | none => true)

/-- Local time of day of a UTC instant, as microseconds since local
midnight; datetime.time() values compare exactly like these counts. -/
def time_of_day (off t : Int) : Int := (t + off) % usPerDay

/-- The time-cutoff filter each retriever applies: with a cutoff set, a record
survives only when its time of day is strictly greater. -/
def passes_time (off : Int) (time_filter : Option Int) (t : Int) : Bool :=
  match time_filter with
  | none => true
  | some cutoff => decide (cutoff < time_of_day off t)

/-! ### Advisory plan and criteria merge (query_planner.py lines 18-31,
query_engine.py lines 129-186) -/

/-- QueryPlan dataclass: every field optional or possibly empty. -/
structure QueryPlan where
  include_messages : Option Bool
  include_calls : Option Bool
  include_locations : Option Bool
  include_graph : Option Bool
  foreign_only : Option Bool
  person_names : List String
  topics : List String
  start_date : Option String
  end_date : Option String
  time_after : Option String
  result_limit : Option Int
  location_limit : Option Int
deriving DecidableEq

/-- Python truthiness of an optional string. -/
def optStrTruthy : Option String → Bool
  | some s => s ≠ ""
  | none => false

/-- The filter criteria the answer method assembles before dispatching the
retrievers. -/
structure Criteria where
  person_ids : List Nat
  foreign_only : Bool
  suspicious_terms : List String
  topic_terms : List String
  time_filter : Option Int
  date_range : Option Int × Option Int
  include_messages : Bool
  include_calls : Bool
  include_locations : Bool
  include_graph : Bool
  message_limit : Nat
  call_limit : Nat
  location_limit : Nat
deriving DecidableEq

/-- The heuristic criteria of answer lines 129-152.  The date range and time
cutoff are the results of _extract_date_range and _extract_time_filter, which
call the external dateparser library; they enter as inputs. -/
def heuristic_criteria (query : String) (contacts : List Contact) (limit : Nat)
    (date_range : Option Int × Option Int) (time_filter : Option Int) : Criteria :=
  let query_lower := str_lower query
  { person_ids := detect_person_ids query_lower contacts
    foreign_only := FOREIGN_TERMS.any (fun term => contains_sub query_lower term)
    suspicious_terms := SUSPICIOUS_TERMS.filter (fun term => contains_sub query_lower term)
    topic_terms := answer_topic_terms query contacts
    time_filter := time_filter
    date_range := date_range
    include_messages := heuristic_include_messages_final query_lower
    include_calls := heuristic_include_calls query_lower
    include_locations := heuristic_include_locations query_lower
    include_graph := heuristic_include_graph query_lower
    message_limit := limit
    call_limit := limit
    location_limit := limit }

/-- The plan merge of answer lines 154-182.  parse_date_fragment and
parse_time stand for _parse_date_fragment (external dateparser) and
_parse_time_of_day. -/
def merge_plan (off : Int) (c : Criteria) (plan : QueryPlan) (contacts : List Contact)
    (parse_date_fragment : String → Option PyDatetime)
    (parse_time : String → Option Int) : Criteria :=
  let include_messages :=
    match plan.include_messages with | some b => b | none => c.include_messages
  let include_calls :=
    match plan.include_calls with | some b => b | none => c.include_calls
  let include_locations :=
    match plan.include_locations with | some b => b | none => c.include_locations
  let include_graph := if plan.include_graph = some true then true else c.include_graph
  let foreign_only := if plan.foreign_only = some true then true else c.foreign_only
  let person_ids :=
    if plan.person_names.isEmpty then c.person_ids
    else c.person_ids
      ++ (match_contacts_by_name plan.person_names contacts).filter
            (fun i => !c.person_ids.contains i)
  let topic_terms :=
    if plan.topics.isEmpty then c.topic_terms
    else c.topic_terms
      ++ (plan.topics.map str_lower).filter (fun t => !c.topic_terms.contains t)
  let limit_override : Option Nat :=
    match plan.result_limit with
    | some v => if v ≠ 0 then some (max 1 v).toNat else none
    | none => none
  let message_limit := match limit_override with | some n => n | none => c.message_limit
  let call_limit := match limit_override with | some n => n | none => c.call_limit
  let location_limit0 := match limit_override with | some n => n | none => c.location_limit
  let location_limit :=
    match plan.location_limit with
    | some v => if v ≠ 0 then (max 1 v).toNat else location_limit0
    | none => location_limit0
  let date_range :=
    if optStrTruthy plan.start_date || optStrTruthy plan.end_date then
      let parsed_start :=
        match plan.start_date with
        | some s => if s ≠ "" then parse_date_fragment s else none
        | none => none
      let parsed_end :=
        match plan.end_date with
        | some s => if s ≠ "" then parse_date_fragment s else none
        | none => none
      if parsed_start.isSome || parsed_end.isSome then
        normalize_range off
          (parsed_start.orElse (fun _ => (c.date_range.1).map PyDatetime.aware))
          (parsed_end.orElse (fun _ => (c.date_range.2).map PyDatetime.aware))
      else c.date_range
    else c.date_range
  let time_filter :=
    if optStrTruthy plan.time_after then
      match parse_time ((plan.time_after).getD "") with
      | some t => some t
      | none => c.time_filter
    else c.time_filter
  { person_ids := person_ids
    foreign_only := foreign_only
    suspicious_terms := c.suspicious_terms
    topic_terms := topic_terms
    time_filter := time_filter
    date_range := date_range
    include_messages := include_messages
    include_calls := include_calls
    include_locations := include_locations
    include_graph := include_graph
    message_limit := message_limit
    call_limit := call_limit
    location_limit := location_limit }

/-- The second force on messages, answer lines 184-185: applied after the plan
merge when no evidence category is left enabled. -/
def post_plan_force (c : Criteria) : Criteria :=
  if !(c.include_messages || c.include_calls || c.include_locations) then
    { c with include_messages := true }
  else c

/-! ### Evidence records and result rows (storage/database.py lines 58-121,
storage/vector_store.py lines 15-21)

Timestamps are UTC microsecond instants; latitude, longitude and accuracy are
inert payload carried through unchanged, modelled on Int.  Result rows carry
the local wall-clock instant in place of the ISO-8601 rendering that
_format_local_iso produces from it. -/

structure Message where
  message_id : Nat
  sender_id : Nat
  receiver_id : Option Nat
  timestamp : Int
  content : String
  app_name : Option String
  keywords : List String
deriving DecidableEq

structure Call where
  call_id : Nat
  caller_id : Nat
  callee_id : Nat
  call_type : String
  start_time : Int
  duration_seconds : Int
  location : Option String
deriving DecidableEq

structure Location where
  location_id : Nat
  contact_id : Nat
  latitude : Int
  longitude : Int
  timestamp : Int
  accuracy_meters : Option Int
deriving DecidableEq

/-- VectorRecord as the message retriever consumes it: only the message id is
read. -/
structure VectorRecord where
  message_id : Nat
deriving DecidableEq

structure MessageRow where
  message_id : Nat
  timestamp_local : Int
  app : Option String
  sender : Option String
  receiver : Option String
  content : String
  keywords : List String
deriving DecidableEq

structure CallRow where
  call_id : Nat
  timestamp_local : Int
  caller : Option String
  callee : Option String
  duration_seconds : Int
  call_type : String
  location : Option String
deriving DecidableEq

structure LocationRow where
  location_id : Nat
  timestamp_local : Int
  contact : Option String
  latitude : Int
  longitude : Int
  accuracy_meters : Option Int
deriving DecidableEq

def mk_message_row (off : Int) (lookup : Nat → Option Contact) (m : Message) : MessageRow :=
  { message_id := m.message_id
    timestamp_local := local_wall off m.timestamp
    app := m.app_name
    sender := match lookup m.sender_id with | some c => c.name | none => some "Unknown"
    receiver := match m.receiver_id.bind lookup with | some c => c.name | none => none
    content := m.content
    keywords := m.keywords }

def mk_call_row (off : Int) (lookup : Nat → Option Contact) (c : Call) : CallRow :=
  { call_id := c.call_id
    timestamp_local := local_wall off c.start_time
    caller := (lookup c.caller_id).bind Contact.name
    callee := (lookup c.callee_id).bind Contact.name
    duration_seconds := c.duration_seconds
    call_type := c.call_type
    location := c.location }

def mk_location_row (off : Int) (lookup : Nat → Option Contact) (l : Location) : LocationRow :=
  { location_id := l.location_id
    timestamp_local := local_wall off l.timestamp
    contact := (lookup l.contact_id).bind Contact.name
    latitude := l.latitude
    longitude := l.longitude
    accuracy_meters := l.accuracy_meters }

/-! ### In-memory filters (query_engine.py lines 349-365, 410-427, 464-474,
510-514) -/

/-- Python: country and country different from India.  A None or empty country
never counts as foreign. -/
def is_foreign_country : Option String → Bool
  | some c => c ≠ "" && c ≠ "India"
  | none => false

/-- The foreign-only country check over the two participants of a record. -/
def foreign_pass (a b : Option Contact) : Bool :=
  is_foreign_country (a.bind Contact.country) || is_foreign_country (b.bind Contact.country)

/-- Loop-body filter of _enrich_messages and _fallback_message_search: date
range re-check, strict time cutoff, foreign-only check, and the topic-term
containment that the union with the suspicious terms only enforces when the
term set is non-empty. -/
def message_keep (off : Int) (lookup : Nat → Option Contact) (foreign_only : Bool)
    (range : Option Int × Option Int) (time_filter : Option Int)
    (topic_terms : List String) (m : Message) : Bool :=
  timestamp_in_range m.timestamp range
    && passes_time off time_filter m.timestamp
    && (!foreign_only || foreign_pass (lookup m.sender_id) (m.receiver_id.bind lookup))
    && (topic_terms.isEmpty
        || (topic_terms ++ SUSPICIOUS_TERMS).any (fun term => contains_sub (str_lower m.content) term))

/-- Loop-body filter of _query_calls. -/
def call_keep (off : Int) (lookup : Nat → Option Contact) (foreign_only : Bool)
    (range : Option Int × Option Int) (time_filter : Option Int) (c : Call) : Bool :=
  timestamp_in_range c.start_time range
    && passes_time off time_filter c.start_time
    && (!foreign_only || foreign_pass (lookup c.caller_id) (lookup c.callee_id))

/-- Loop-body filter of _query_locations: date range and time cutoff only; the
method receives no foreign_only argument and applies no country check. -/
def location_keep (off : Int) (range : Option Int × Option Int)
    (time_filter : Option Int) (l : Location) : Bool :=
  timestamp_in_range l.timestamp range && passes_time off time_filter l.timestamp

/-- The `append then stop once the limit is reached` loop every retriever
runs: n is the number of rows already collected. -/
def loop_collect {α : Type} (keep : α → Bool) (limit : Nat) : List α → Nat → List α
  | [], _ => []
  | x :: rest, n =>
    if keep x then
      if n + 1 ≥ limit then [x]
      else x :: loop_collect keep limit rest (n + 1)
    else loop_collect keep limit rest n

/-! ### Retrievers (query_engine.py lines 273-544)

Each function takes the rows the backing store returns for its window query
(date-range and person-id predicates pushed down, timestamp-descending,
capped at 200) as an explicit list input. -/

def query_calls_records (off : Int) (lookup : Nat → Option Contact) (foreign_only : Bool)
    (range : Option Int × Option Int) (time_filter : Option Int) (limit : Nat)
    (calls : List Call) : List Call :=
  loop_collect (call_keep off lookup foreign_only range time_filter) limit calls 0

def query_calls (off : Int) (lookup : Nat → Option Contact) (foreign_only : Bool)
    (range : Option Int × Option Int) (time_filter : Option Int) (limit : Nat)
    (calls : List Call) : List CallRow :=
  (query_calls_records off lookup foreign_only range time_filter limit calls).map
    (mk_call_row off lookup)

def query_locations_records (off : Int) (range : Option Int × Option Int)
    (time_filter : Option Int) (limit : Nat) (locations : List Location) : List Location :=
  loop_collect (location_keep off range time_filter) limit locations 0

def query_locations (off : Int) (lookup : Nat → Option Contact)
    (range : Option Int × Option Int) (time_filter : Option Int) (limit : Nat)
    (locations : List Location) : List LocationRow :=
  (query_locations_records off range time_filter limit locations).map
    (mk_location_row off lookup)

/-- The ranking dict of _enrich_messages maps each message id to its last
index in the candidate list; absent ids default to the dict size, the number
of distinct candidate ids. -/
def last_index_of (mid : Nat) : List Nat → Option Nat
  | [] => none
  | x :: xs =>
    match last_index_of mid xs with
    | some i => some (i + 1)
    | none => if x = mid then some 0 else none

def rank_get (ids : List Nat) (mid : Nat) : Nat :=
  match last_index_of mid ids with
  | some i => i
  | none => ids.dedup.length

/-- records.sort with the ranking key: Python list.sort is a stable ascending
sort, which insertionSort on the key order realizes exactly. -/
def sort_by_rank (ids : List Nat) (records : List Message) : List Message :=
  List.insertionSort (fun a b => rank_get ids a.message_id ≤ rank_get ids b.message_id) records

/-- _enrich_messages on the records fetched for the candidate ids: reorder to
the original similarity rank, then filter and truncate. -/
def enrich_messages_records (off : Int) (lookup : Nat → Option Contact)
    (foreign_only : Bool) (range : Option Int × Option Int) (time_filter : Option Int)
    (topic_terms : List String) (limit : Nat)
    (candidates : List VectorRecord) (records : List Message) : List Message :=
  let message_ids := candidates.map VectorRecord.message_id
  if message_ids.isEmpty then []
  else
    loop_collect (message_keep off lookup foreign_only range time_filter topic_terms) limit
      (sort_by_rank message_ids records) 0

def enrich_messages (off : Int) (lookup : Nat → Option Contact)
    (foreign_only : Bool) (range : Option Int × Option Int) (time_filter : Option Int)
    (topic_terms : List String) (limit : Nat)
    (candidates : List VectorRecord) (records : List Message) : List MessageRow :=
  (enrich_messages_records off lookup foreign_only range time_filter topic_terms limit
      candidates records).map (mk_message_row off lookup)

/-- Fallback tokens: the topic terms, or a fresh extraction when they are
empty. -/
def fallback_tokens (query_text : String) (contacts : List Contact)
    (person_ids : List Nat) (topic_terms : List String) : List String :=
  if topic_terms.isEmpty then extract_topic_terms (str_lower query_text) [] contacts person_ids
  else topic_terms

/-- _fallback_message_search over the most-recent window the store returns. -/
def fallback_message_search_records (off : Int) (contacts : List Contact)
    (person_ids : List Nat) (foreign_only : Bool) (range : Option Int × Option Int)
    (time_filter : Option Int) (topic_terms : List String) (limit : Nat)
    (query_text : String) (db : List Message) : List Message :=
  let tokens := fallback_tokens query_text contacts person_ids topic_terms
  loop_collect (message_keep off (contact_lookup contacts) foreign_only range time_filter tokens)
    limit db 0

def fallback_message_search (off : Int) (contacts : List Contact)
    (person_ids : List Nat) (foreign_only : Bool) (range : Option Int × Option Int)
    (time_filter : Option Int) (topic_terms : List String) (limit : Nat)
    (query_text : String) (db : List Message) : List MessageRow :=
  (fallback_message_search_records off contacts person_ids foreign_only range time_filter
      topic_terms limit query_text db).map (mk_message_row off (contact_lookup contacts))

/-- _collect_messages: the vector store query outcome enters as none when the
index never loaded, or as the ok or error outcome of the call; an error is
caught and leaves the candidate list empty.  enrich_db and fallback_db are the
rows the two store queries would return. -/
def collect_messages (off : Int) (contacts : List Contact) (person_ids : List Nat)
    (foreign_only : Bool) (range : Option Int × Option Int) (time_filter : Option Int)
    (topic_terms : List String) (limit : Nat) (query_text : String)
    (vector_result : Option (Except String (List VectorRecord)))
    (enrich_db fallback_db : List Message) : List MessageRow :=
  let candidates : List VectorRecord :=
    match vector_result with
    | some (Except.ok records) => records
    | some (Except.error _) => []
    | none => []
  let results :=
    if candidates.isEmpty then []
    else
      enrich_messages off (contact_lookup contacts) foreign_only range time_filter
        topic_terms limit candidates enrich_db
  let results :=
    if results.isEmpty then
      fallback_message_search off contacts person_ids foreign_only range time_filter
        topic_terms limit query_text fallback_db
    else results
  results.take limit

/-! ### Graph summary (query_engine.py lines 530-544) -/

structure GraphNode where
  id : Nat
  label : Option String
deriving DecidableEq

structure Graph where
  nodes : List GraphNode
  adj : List (Nat × List Nat)
deriving DecidableEq

def neighbors_of (g : Graph) (n : Nat) : List Nat :=
  match g.adj.find? (fun p => p.1 = n) with
  | some p => p.2
  | none => []

def node_label (g : Graph) (n : Nat) : String :=
  match g.nodes.find? (fun nd => nd.id = n) with
  | some nd => nd.label.getD (toString n)
  | none => toString n

def graph_insight (g : Graph) (n : Nat) : String :=
  let neighbor_labels := (neighbors_of g n).map (node_label g)
  let joined := String.intercalate ", " (neighbor_labels.take 5)
  node_label g n ++ " connects to " ++ joined

/-- _graph_summary: walk a 2*limit prefix of the nodes, skip isolated ones,
stop at limit insights. -/
def graph_summary (g : Graph) (limit : Nat) : List String :=
  (loop_collect (fun nd => !(neighbors_of g nd.id).isEmpty) limit (g.nodes.take (limit * 2)) 0).map
    (fun nd => graph_insight g nd.id)

/-! ### Helper lemmas about the collection loop, the ranking and the stable
sort -/

lemma band_elim {a b : Bool} (h : (a && b) = true) : a = true ∧ b = true := by
  cases a <;> cases b <;> simp_all

lemma loop_collect_sublist {α : Type} (keep : α → Bool) (limit : Nat) :
    ∀ (l : List α) (n : Nat), (loop_collect keep limit l n).Sublist l := by
  intro l
  induction l with
  | nil => intro n; simp [loop_collect]
  | cons x rest ih =>
    intro n
    unfold loop_collect
    split
    · split
      · exact (List.nil_sublist rest).cons₂ x
      · exact (ih (n + 1)).cons₂ x
    · exact (ih n).cons x

lemma loop_collect_mem_keep {α : Type} {keep : α → Bool} {limit : Nat} :
    ∀ {l : List α} {n : Nat} {x : α}, x ∈ loop_collect keep limit l n → keep x = true := by
  intro l
  induction l with
  | nil => intro n x h; simp [loop_collect] at h
  | cons y rest ih =>
    intro n x h
    unfold loop_collect at h
    by_cases hk : keep y
    · rw [if_pos hk] at h
      by_cases hl : n + 1 ≥ limit
      · rw [if_pos hl] at h
        simp only [List.mem_singleton] at h
        subst h; exact hk
      · rw [if_neg hl] at h
        rcases List.mem_cons.mp h with h1 | h2
        · subst h1; exact hk
        · exact ih h2
    · rw [if_neg hk] at h; exact ih h

lemma loop_collect_length {α : Type} (keep : α → Bool) (limit : Nat) :
    ∀ (l : List α) (n : Nat), n < limit → (loop_collect keep limit l n).length ≤ limit - n := by
  intro l
  induction l with
  | nil => intro n _; simp [loop_collect]
  | cons x rest ih =>
    intro n hn
    unfold loop_collect
    split
    · split
      · simp only [List.length_singleton]; omega
      · rename_i hlim
        have h2 : n + 1 < limit := by omega
        have := ih (n + 1) h2
        simp only [List.length_cons]
        omega
    · exact ih n hn

lemma last_index_of_none {mid : Nat} :
    ∀ {ids : List Nat}, mid ∉ ids → last_index_of mid ids = none := by
  intro ids
  induction ids with
  | nil => intro _; rfl
  | cons x xs ih =>
    intro h
    have hx : ¬(x = mid) := fun e => h (by simp [e])
    have hxs : mid ∉ xs := fun e => h (List.mem_cons_of_mem _ e)
    unfold last_index_of
    rw [ih hxs]
    simp [hx]

lemma last_index_of_isSome {mid : Nat} :
    ∀ {ids : List Nat}, mid ∈ ids → (last_index_of mid ids).isSome := by
  intro ids
  induction ids with
  | nil => intro h; simp at h
  | cons x xs ih =>
    intro h
    unfold last_index_of
    rcases List.mem_cons.mp h with h1 | h2
    · cases hr : last_index_of mid xs with
      | some i => simp
      | none => simp [h1]
    · have := ih h2
      cases hr : last_index_of mid xs with
      | some i => simp
      | none => rw [hr] at this; simp at this

lemma last_index_of_lt {mid : Nat} :
    ∀ {ids : List Nat} {i : Nat}, last_index_of mid ids = some i → i < ids.length := by
  intro ids
  induction ids with
  | nil => intro i h; simp [last_index_of] at h
  | cons x xs ih =>
    intro i h
    unfold last_index_of at h
    cases hr : last_index_of mid xs with
    | some j =>
      rw [hr] at h
      simp only [Option.some.injEq] at h
      have := ih hr
      simp only [List.length_cons]
      omega
    | none =>
      rw [hr] at h
      by_cases hx : x = mid
      · rw [if_pos hx] at h
        simp only [Option.some.injEq] at h
        simp [← h]
      · rw [if_neg hx] at h; cases h

lemma rank_get_absent {ids : List Nat} {mid : Nat} (h : mid ∉ ids) :
    rank_get ids mid = ids.dedup.length := by
  unfold rank_get
  rw [last_index_of_none h]

lemma rank_get_lt_of_mem {ids : List Nat} {mid : Nat} (h : mid ∈ ids) :
    rank_get ids mid < ids.length := by
  unfold rank_get
  obtain ⟨i, hi⟩ := Option.isSome_iff_exists.mp (last_index_of_isSome h)
  rw [hi]
  exact last_index_of_lt hi

lemma filter_orderedInsert {α : Type} (key : α → Nat) (k : Nat) (x : α) :
    ∀ l : List α,
      (List.orderedInsert (fun a b => key a ≤ key b) x l).filter (fun a => key a == k)
        = if key x == k
          then x :: l.filter (fun a => key a == k)
          else l.filter (fun a => key a == k) := by
  intro l
  induction l with
  | nil =>
    simp only [List.orderedInsert, List.filter_nil]
    by_cases hx : (key x == k) = true <;> simp [hx]
  | cons y ys ih =>
    show (List.orderedInsert _ x (y :: ys)).filter _ = _
    rw [List.orderedInsert]
    by_cases hxy : key x ≤ key y
    · rw [if_pos hxy]
      by_cases hx : (key x == k) = true <;> simp [hx, List.filter_cons]
    · rw [if_neg hxy]
      have hyx : key y < key x := Nat.lt_of_not_le hxy
      by_cases hx : (key x == k) = true
      · have hk : key x = k := by simpa using hx
        have hy : ¬((key y == k) = true) := by
          intro hy
          have : key y = k := by simpa using hy
          omega
        simp [List.filter_cons, hy, ih, hx]
      · by_cases hy : (key y == k) = true <;> simp [List.filter_cons, hy, ih, hx]

lemma filter_insertionSort {α : Type} (key : α → Nat) (k : Nat) :
    ∀ l : List α,
      (List.insertionSort (fun a b => key a ≤ key b) l).filter (fun a => key a == k)
        = l.filter (fun a => key a == k) := by
  intro l
  induction l with
  | nil => rfl
  | cons x xs ih =>
    rw [List.insertionSort, filter_orderedInsert key k x]
    by_cases hx : (key x == k) = true <;> simp [hx, ih, List.filter_cons]

lemma pairwise_insertionSort {α : Type} (key : α → Nat) (l : List α) :
    (List.insertionSort (fun a b => key a ≤ key b) l).Pairwise (fun a b => key a ≤ key b) := by
  haveI : IsTotal α (fun a b => key a ≤ key b) := ⟨fun a b => Nat.le_total (key a) (key b)⟩
  haveI : IsTrans α (fun a b => key a ≤ key b) :=
    ⟨fun a b c hab hbc => Nat.le_trans hab hbc⟩
  exact List.sorted_insertionSort _ l

/-! ### Shared concrete sample data for witnesses and counterexamples -/

def demo_contacts : List Contact :=
  [⟨1, some "Raj Kumar", some "+911234567890", some "India"⟩,
   ⟨2, some "Alex Stone", some "+441234567890", some "United Kingdom"⟩]

def demo_call : Call := ⟨1, 1, 2, "outgoing", 1000, 60, none⟩

def demo_location : Location := ⟨1, 1, 7, 8, 1000, some 5⟩

def demo_message : Message := ⟨10, 1, some 2, 2000, "bitcoin transfer tonight", some "chat", []⟩

/-! ### C1 -/

/-- C1, corrected: the heuristic of lines 143-148 always enables the messages
category.  The ternary enables it outright whenever calls or locations
matched; otherwise message keywords decide, and the force of lines 147-148
turns a negative outcome back on. -/
theorem heuristic_messages_always_included (query_lower : String) :
    heuristic_include_messages_final query_lower = true := by
  unfold heuristic_include_messages_final heuristic_include_messages
  cases hc : heuristic_include_calls query_lower <;>
    cases hl : heuristic_include_locations query_lower <;>
      cases hk : (splitWs query_lower).any (fun w => MESSAGE_TERMS.contains w) <;>
        simp [hc, hl, hk]

/-- C1, counterexample: the query "call raj" triggers the calls category and
contains no message keyword, yet the messages category is still included,
against the claim that it would not be. -/
theorem heuristic_messages_with_call_query :
    heuristic_include_calls "call raj" = true
    ∧ ((splitWs "call raj").any fun w => MESSAGE_TERMS.contains w) = false
    ∧ heuristic_include_locations "call raj" = false
    ∧ heuristic_include_messages_final "call raj" = true := by decide

/-! ### C3 -/

/-- C3, amended: the three-valued override holds for include_messages,
include_calls and include_locations, but include_graph is only forced to
true (a plan value of false is ignored), exactly like foreign_only; and the
post-merge force can turn include_messages back on against an explicit plan
false when no evidence category is left enabled. -/
theorem plan_merge_boolean_semantics (off : Int) (c : Criteria) (plan : QueryPlan)
    (contacts : List Contact) (parse_date_fragment : String → Option PyDatetime)
    (parse_time : String → Option Int) :
    (merge_plan off c plan contacts parse_date_fragment parse_time).include_messages
        = (match plan.include_messages with | some b => b | none => c.include_messages)
    ∧ (merge_plan off c plan contacts parse_date_fragment parse_time).include_calls
        = (match plan.include_calls with | some b => b | none => c.include_calls)
    ∧ (merge_plan off c plan contacts parse_date_fragment parse_time).include_locations
        = (match plan.include_locations with | some b => b | none => c.include_locations)
    ∧ (merge_plan off c plan contacts parse_date_fragment parse_time).include_graph
        = (if plan.include_graph = some true then true else c.include_graph)
    ∧ (merge_plan off c plan contacts parse_date_fragment parse_time).foreign_only
        = (if plan.foreign_only = some true then true else c.foreign_only)
    ∧ ∀ m : Criteria,
        (post_plan_force m).include_messages
            = (m.include_messages || (!m.include_calls && !m.include_locations))
        ∧ (post_plan_force m).include_calls = m.include_calls
        ∧ (post_plan_force m).include_locations = m.include_locations := by
  refine ⟨rfl, rfl, rfl, rfl, rfl, ?_⟩
  intro m
  by_cases h1 : m.include_messages <;> by_cases h2 : m.include_calls <;>
    by_cases h3 : m.include_locations <;>
      simp [post_plan_force, h1, h2, h3]

def plan_graph_false : QueryPlan :=
  ⟨none, none, none, some false, none, [], [], none, none, none, none, none⟩

/-- C3, counterexample: the heuristic enables the graph category for the
query "connections", the plan sets include_graph to an explicit false, and
the merged decision is still true: the plan cannot override include_graph
downward, against the claimed uniform tri-state rule. -/
theorem plan_graph_false_not_overriding :
    heuristic_include_graph "connections" = true
    ∧ plan_graph_false.include_graph = some false
    ∧ (merge_plan 0 (heuristic_criteria "connections" [] 5 (none, none) none)
          plan_graph_false [] (fun _ => none) (fun _ => none)).include_graph = true := by
  decide

/-! ### C7 -/

/-- C7, confirmed: whenever _normalize_range yields two bounds, the start is
at most the end (out-of-order inputs are swapped before the conversion back
to UTC), and a single present bound is widened to the start and end of its
own local calendar day. -/
theorem normalize_range_ordered (off : Int) (s e : Option PyDatetime) :
    (∀ a b : Int, normalize_range off s e = (some a, some b) → a ≤ b)
    ∧ ∀ d : PyDatetime,
        normalize_range off (some d) none
          = (some (floor_day (local_wall off (attach_local off d)) - off),
             some (floor_day (local_wall off (attach_local off d)) + (usPerDay - 1) - off))
        ∧ normalize_range off none (some d)
          = (some (floor_day (local_wall off (attach_local off d)) - off),
             some (floor_day (local_wall off (attach_local off d)) + (usPerDay - 1) - off)) := by
  have hn2 : ∀ x y a b : Int, norm2 off x y = (some a, some b) → a ≤ b := by
    intro x y a b h
    by_cases hc :
        floor_day (local_wall off x) > floor_day (local_wall off y) + (usPerDay - 1)
    · simp only [norm2, if_pos hc, Prod.mk.injEq, Option.some.injEq] at h
      omega
    · simp only [norm2, if_neg hc, Prod.mk.injEq, Option.some.injEq] at h
      omega
  have hone : ∀ i : Int, norm2 off i i
      = (some (floor_day (local_wall off i) - off),
         some (floor_day (local_wall off i) + (usPerDay - 1) - off)) := by
    intro i
    have hc : ¬(floor_day (local_wall off i) > floor_day (local_wall off i) + (usPerDay - 1)) := by
      simp only [usPerDay]; omega
    simp only [norm2, if_neg hc]
  constructor
  · intro a b h
    match s, e with
    | none, none => simp [normalize_range] at h
    | some sv, none => exact hn2 _ _ a b h
    | none, some ev => exact hn2 _ _ a b h
    | some sv, some ev => exact hn2 _ _ a b h
  · intro d
    exact ⟨hone (attach_local off d), hone (attach_local off d)⟩

/-- C7, witness: an out-of-order pair of naive datetimes at offset +5:30
still yields an ordered range. -/
theorem normalize_range_ordered_witness :
    normalize_range 19800000000 (some (PyDatetime.naive 1000000000000000))
        (some (PyDatetime.naive 5000000000))
      = (some 66599999999, some 999973800000000)
    ∧ (66599999999 : Int) ≤ 999973800000000 :=
  ⟨by decide,
   (normalize_range_ordered 19800000000 (some (PyDatetime.naive 1000000000000000))
      (some (PyDatetime.naive 5000000000))).1 66599999999 999973800000000 (by decide)⟩

/-! ### C10 -/

/-- C10, confirmed: with an empty topic-term set the stage-1 enrichment
applies no content filter at all; the union with the suspicious terms is only
consulted when the set is non-empty, so a candidate passing the date, time
and foreign filters is kept whatever its content. -/
theorem empty_topic_terms_skip_content_filter (off : Int) (lookup : Nat → Option Contact)
    (foreign_only : Bool) (range : Option Int × Option Int) (time_filter : Option Int) :
    (∀ m : Message,
      message_keep off lookup foreign_only range time_filter [] m
        = (timestamp_in_range m.timestamp range
            && passes_time off time_filter m.timestamp
            && (!foreign_only || foreign_pass (lookup m.sender_id) (m.receiver_id.bind lookup))))
    ∧ ∀ (limit : Nat) (candidates : List VectorRecord) (records : List Message),
        enrich_messages_records off lookup foreign_only range time_filter [] limit
            candidates records
          = if (candidates.map VectorRecord.message_id).isEmpty then []
            else
              loop_collect
                (fun m => timestamp_in_range m.timestamp range
                  && passes_time off time_filter m.timestamp
                  && (!foreign_only || foreign_pass (lookup m.sender_id) (m.receiver_id.bind lookup)))
                limit (sort_by_rank (candidates.map VectorRecord.message_id) records) 0 := by
  have hkeep : message_keep off lookup foreign_only range time_filter []
      = (fun m => timestamp_in_range m.timestamp range
          && passes_time off time_filter m.timestamp
          && (!foreign_only || foreign_pass (lookup m.sender_id) (m.receiver_id.bind lookup))) := by
    funext m
    simp [message_keep]
  exact ⟨fun m => by rw [hkeep], fun limit candidates records => by
    simp only [enrich_messages_records, hkeep]⟩

/-! ### C2 -/

/-- C2, amended: when foreign_only is set the calls retriever and both stages
of message retrieval keep only records with a participant whose country is
non-null and different from India; the locations retriever receives no
foreign_only argument and applies no such check. -/
theorem foreign_filter_calls_and_messages (off : Int) (lookup : Nat → Option Contact)
    (contacts : List Contact) (person_ids : List Nat) (range : Option Int × Option Int)
    (time_filter : Option Int) (topic_terms : List String) (limit : Nat)
    (candidates : List VectorRecord) (records : List Message)
    (query_text : String) (db : List Message) (calls : List Call) :
    (∀ c ∈ query_calls_records off lookup true range time_filter limit calls,
        foreign_pass (lookup c.caller_id) (lookup c.callee_id) = true)
    ∧ (∀ m ∈ enrich_messages_records off lookup true range time_filter topic_terms limit
          candidates records,
        foreign_pass (lookup m.sender_id) (m.receiver_id.bind lookup) = true)
    ∧ ∀ m ∈ fallback_message_search_records off contacts person_ids true range time_filter
          topic_terms limit query_text db,
        foreign_pass (contact_lookup contacts m.sender_id)
            (m.receiver_id.bind (contact_lookup contacts)) = true := by
  refine ⟨?_, ?_, ?_⟩
  · intro c hc
    have hk := loop_collect_mem_keep hc
    unfold call_keep at hk
    have hf := (band_elim hk).2
    simpa using hf
  · intro m hm
    simp only [enrich_messages_records] at hm
    split at hm
    · simp at hm
    · have hk := loop_collect_mem_keep hm
      unfold message_keep at hk
      have hf := (band_elim (band_elim hk).1).2
      simpa using hf
  · intro m hm
    simp only [fallback_message_search_records] at hm
    have hk := loop_collect_mem_keep hm
    unfold message_keep at hk
    have hf := (band_elim (band_elim hk).1).2
    simpa using hf

/-- C2, witness: a call whose callee has a non-Indian country survives the
foreign-only calls filter, and the theorem reports that it passed the check. -/
theorem foreign_filter_calls_and_messages_witness :
    foreign_pass (contact_lookup demo_contacts demo_call.caller_id)
        (contact_lookup demo_contacts demo_call.callee_id) = true :=
  (foreign_filter_calls_and_messages 0 (contact_lookup demo_contacts) demo_contacts []
      (none, none) none [] 5 [] [] "" [] [demo_call]).1 demo_call (by decide)

/-- C2, counterexample: _query_locations never receives foreign_only; a
location record whose only participant is domestic (country India, failing
the foreign check) still appears in the locations results. -/
theorem locations_skip_foreign_check :
    foreign_pass (contact_lookup demo_contacts demo_location.contact_id)
        (contact_lookup demo_contacts demo_location.contact_id) = false
    ∧ query_locations 0 (contact_lookup demo_contacts) (none, none) none 5 [demo_location]
        = [⟨1, 1000, some "Raj Kumar", 7, 8, some 5⟩] := by decide

/-! ### C6 -/

/-- C6, confirmed: with a time cutoff set, every retriever excludes a record
whose local time of day equals the cutoff and keeps only records whose local
time of day is strictly greater. -/
theorem time_cutoff_strict (off cutoff : Int) (lookup : Nat → Option Contact)
    (contacts : List Contact) (person_ids : List Nat) (foreign_only : Bool)
    (range : Option Int × Option Int) (topic_terms : List String) (limit : Nat)
    (candidates : List VectorRecord) (records : List Message) (query_text : String)
    (db : List Message) (calls : List Call) (locations : List Location) :
    (∀ m ∈ enrich_messages_records off lookup foreign_only range (some cutoff) topic_terms
        limit candidates records, cutoff < time_of_day off m.timestamp)
    ∧ (∀ m ∈ fallback_message_search_records off contacts person_ids foreign_only range
        (some cutoff) topic_terms limit query_text db, cutoff < time_of_day off m.timestamp)
    ∧ (∀ c ∈ query_calls_records off lookup foreign_only range (some cutoff) limit calls,
        cutoff < time_of_day off c.start_time)
    ∧ (∀ l ∈ query_locations_records off range (some cutoff) limit locations,
        cutoff < time_of_day off l.timestamp)
    ∧ (∀ m : Message, time_of_day off m.timestamp = cutoff →
        message_keep off lookup foreign_only range (some cutoff) topic_terms m = false)
    ∧ (∀ c : Call, time_of_day off c.start_time = cutoff →
        call_keep off lookup foreign_only range (some cutoff) c = false)
    ∧ ∀ l : Location, time_of_day off l.timestamp = cutoff →
        location_keep off range (some cutoff) l = false := by
  refine ⟨?_, ?_, ?_, ?_, ?_, ?_, ?_⟩
  · intro m hm
    simp only [enrich_messages_records] at hm
    split at hm
    · simp at hm
    · have hk := loop_collect_mem_keep hm
      unfold message_keep at hk
      have ht := (band_elim (band_elim (band_elim hk).1).1).2
      simpa [passes_time] using ht
  · intro m hm
    simp only [fallback_message_search_records] at hm
    have hk := loop_collect_mem_keep hm
    unfold message_keep at hk
    have ht := (band_elim (band_elim (band_elim hk).1).1).2
    simpa [passes_time] using ht
  · intro c hc
    have hk := loop_collect_mem_keep hc
    unfold call_keep at hk
    have ht := (band_elim (band_elim hk).1).2
    simpa [passes_time] using ht
  · intro l hl
    have hk := loop_collect_mem_keep hl
    unfold location_keep at hk
    have ht := (band_elim hk).2
    simpa [passes_time] using ht
  · intro m hm
    simp [message_keep, passes_time, hm]
  · intro c hc
    simp [call_keep, passes_time, hc]
  · intro l hl
    simp [location_keep, passes_time, hl]

/-- C6, witness: with cutoff 0 the demo call at local time of day 1000
microseconds is kept and its time of day is indeed strictly greater. -/
theorem time_cutoff_strict_witness :
    (0 : Int) < time_of_day 0 demo_call.start_time :=
  (time_cutoff_strict 0 0 (contact_lookup demo_contacts) demo_contacts [] false
      (none, none) [] 5 [] [] "" [] [demo_call] []).2.2.1 demo_call (by decide)

/-! ### C9 -/

/-- C9, confirmed: each category result list is no longer than its configured
limit.  The messages list is truncated unconditionally; the call, location
and graph loops stop after appending the row that reaches the limit, so their
bounds hold for every positive limit. -/
theorem category_results_bounded (off : Int) (contacts : List Contact)
    (person_ids : List Nat) (lookup : Nat → Option Contact) (foreign_only : Bool)
    (range : Option Int × Option Int) (time_filter : Option Int)
    (topic_terms : List String) (query_text : String)
    (vector_result : Option (Except String (List VectorRecord)))
    (enrich_db fallback_db : List Message) (calls : List Call)
    (locations : List Location) (g : Graph)
    (message_limit call_limit location_limit graph_limit : Nat)
    (hcall : 0 < call_limit) (hloc : 0 < location_limit) (hgraph : 0 < graph_limit) :
    (collect_messages off contacts person_ids foreign_only range time_filter topic_terms
        message_limit query_text vector_result enrich_db fallback_db).length ≤ message_limit
    ∧ (query_calls off lookup foreign_only range time_filter call_limit calls).length
        ≤ call_limit
    ∧ (query_locations off lookup range time_filter location_limit locations).length
        ≤ location_limit
    ∧ (graph_summary g graph_limit).length ≤ graph_limit := by
  refine ⟨?_, ?_, ?_, ?_⟩
  · simp only [collect_messages]
    exact List.length_take_le _ _
  · simp only [query_calls, query_calls_records, List.length_map]
    have := loop_collect_length
      (call_keep off lookup foreign_only range time_filter) call_limit calls 0 hcall
    omega
  · simp only [query_locations, query_locations_records, List.length_map]
    have := loop_collect_length
      (location_keep off range time_filter) location_limit locations 0 hloc
    omega
  · simp only [graph_summary, List.length_map]
    have := loop_collect_length (fun nd => !(neighbors_of g nd.id).isEmpty) graph_limit
      (g.nodes.take (graph_limit * 2)) 0 hgraph
    omega

def demo_graph : Graph :=
  ⟨[⟨1, some "Raj"⟩, ⟨2, some "Alex"⟩], [(1, [2]), (2, [1])]⟩

/-- C9, witness: the bounds at a concrete dataset with limit 5 per
category. -/
theorem category_results_bounded_witness :
    0 < 5
    ∧ ((collect_messages 0 demo_contacts [] false (none, none) none [] 5 "hello"
          (some (Except.ok [⟨10⟩])) [demo_message] [demo_message]).length ≤ 5
        ∧ (query_calls 0 (contact_lookup demo_contacts) false (none, none) none 5
            [demo_call]).length ≤ 5
        ∧ (query_locations 0 (contact_lookup demo_contacts) (none, none) none 5
            [demo_location]).length ≤ 5
        ∧ (graph_summary demo_graph 5).length ≤ 5) :=
  ⟨by decide,
   category_results_bounded 0 demo_contacts [] (contact_lookup demo_contacts) false
     (none, none) none [] "hello" (some (Except.ok [⟨10⟩])) [demo_message] [demo_message]
     [demo_call] [demo_location] demo_graph 5 5 5 5 (by decide) (by decide) (by decide)⟩

/-! ### C4 -/

/-- C4, confirmed: a vector store error is caught and behaves exactly like an
absent index (zero candidates, nothing propagated), any path with zero
stage-1 results ends in the recency fallback, and the returned list never
exceeds the limit. -/
theorem vector_error_fallback (off : Int) (contacts : List Contact) (person_ids : List Nat)
    (foreign_only : Bool) (range : Option Int × Option Int) (time_filter : Option Int)
    (topic_terms : List String) (limit : Nat) (query_text : String) (err : String)
    (candidates : List VectorRecord) (enrich_db fallback_db : List Message)
    (h : enrich_messages off (contact_lookup contacts) foreign_only range time_filter
        topic_terms limit candidates enrich_db = []) :
    collect_messages off contacts person_ids foreign_only range time_filter topic_terms
        limit query_text (some (Except.error err)) enrich_db fallback_db
      = collect_messages off contacts person_ids foreign_only range time_filter topic_terms
          limit query_text none enrich_db fallback_db
    ∧ collect_messages off contacts person_ids foreign_only range time_filter topic_terms
          limit query_text (some (Except.error err)) enrich_db fallback_db
        = (fallback_message_search off contacts person_ids foreign_only range time_filter
            topic_terms limit query_text fallback_db).take limit
    ∧ collect_messages off contacts person_ids foreign_only range time_filter topic_terms
          limit query_text (some (Except.ok candidates)) enrich_db fallback_db
        = (fallback_message_search off contacts person_ids foreign_only range time_filter
            topic_terms limit query_text fallback_db).take limit
    ∧ ∀ vector_result,
        (collect_messages off contacts person_ids foreign_only range time_filter topic_terms
            limit query_text vector_result enrich_db fallback_db).length ≤ limit := by
  refine ⟨rfl, rfl, ?_, ?_⟩
  · simp only [collect_messages]
    by_cases h0 : candidates.isEmpty <;> simp [h0, h]
  · intro vector_result
    simp only [collect_messages]
    exact List.length_take_le _ _

/-- C4, witness: with one candidate whose record set is empty, stage 1 yields
nothing and both the error path and the empty-enrichment path equal the
truncated fallback. -/
theorem vector_error_fallback_witness :
    enrich_messages 0 (contact_lookup demo_contacts) false (none, none) none [] 5
        [⟨10⟩] [] = []
    ∧ (collect_messages 0 demo_contacts [] false (none, none) none [] 5 "hello"
          (some (Except.error "boom")) [] [demo_message]
        = collect_messages 0 demo_contacts [] false (none, none) none [] 5 "hello"
            none [] [demo_message]
      ∧ collect_messages 0 demo_contacts [] false (none, none) none [] 5 "hello"
            (some (Except.error "boom")) [] [demo_message]
          = (fallback_message_search 0 demo_contacts [] false (none, none) none [] 5
              "hello" [demo_message]).take 5
      ∧ collect_messages 0 demo_contacts [] false (none, none) none [] 5 "hello"
            (some (Except.ok [⟨10⟩])) [] [demo_message]
          = (fallback_message_search 0 demo_contacts [] false (none, none) none [] 5
              "hello" [demo_message]).take 5
      ∧ ∀ vector_result,
          (collect_messages 0 demo_contacts [] false (none, none) none [] 5 "hello"
              vector_result [] [demo_message]).length ≤ 5) :=
  ⟨by decide,
   vector_error_fallback 0 demo_contacts [] false (none, none) none [] 5 "hello" "boom"
     [⟨10⟩] [] [demo_message] (by decide)⟩

/-! ### C8 -/

/-- C8, amended: the heuristically extracted topic terms (before the plan
merge) never contain a stop word, a foreign, location, call or graph keyword,
or any token of a matched person; the plan merge, however, unions in the
plan's topics with no such filtering, so the property does not survive it. -/
theorem heuristic_topic_terms_clean (query : String) (contacts : List Contact) (t : String)
    (ht : t ∈ answer_topic_terms query contacts) :
    t ∉ STOP_WORDS ∧ t ∉ FOREIGN_TERMS ∧ t ∉ LOCATION_TERMS ∧ t ∉ CALL_TERMS
    ∧ t ∉ GRAPH_TERMS
    ∧ ∀ cid ∈ detect_person_ids (str_lower query) contacts,
        t ∉ contact_tokens (contact_lookup contacts cid) := by
  simp only [answer_topic_terms, extract_topic_terms] at ht
  obtain ⟨h6, hP⟩ := List.mem_filter.mp ht
  obtain ⟨h5, hG⟩ := List.mem_filter.mp h6
  obtain ⟨h4, hC⟩ := List.mem_filter.mp h5
  obtain ⟨h3, hL⟩ := List.mem_filter.mp h4
  obtain ⟨h2, hF⟩ := List.mem_filter.mp h3
  have hstop : t ∉ STOP_WORDS := by
    rcases List.mem_append.mp h2 with h | h
    · obtain ⟨_, hs⟩ := List.mem_filter.mp h
      simpa using hs
    · obtain ⟨hs, _⟩ := List.mem_filter.mp h
      have hsusp : t ∈ SUSPICIOUS_TERMS := (List.mem_filter.mp hs).1
      have hns : ∀ x ∈ SUSPICIOUS_TERMS, x ∉ STOP_WORDS := by decide
      exact hns t hsusp
  refine ⟨hstop, by simpa using hF, by simpa using hL, by simpa using hC,
    by simpa using hG, ?_⟩
  intro cid hcid hmem
  have hflat : t ∈ ((detect_person_ids (str_lower query) contacts).map
      (fun cid => contact_tokens (contact_lookup contacts cid))).flatten :=
    List.mem_flatten.mpr ⟨_, List.mem_map_of_mem _ hcid, hmem⟩
  have hP' : t ∉ ((detect_person_ids (str_lower query) contacts).map
      (fun cid => contact_tokens (contact_lookup contacts cid))).flatten := by
    simpa using hP
  exact hP' hflat

/-- C8, witness: the term "crypto" extracted from a query naming a known
contact is free of stop words, category keywords and person tokens. -/
theorem heuristic_topic_terms_clean_witness :
    "crypto" ∈ answer_topic_terms "show me foreign crypto deals with Raj" demo_contacts
    ∧ ("crypto" ∉ STOP_WORDS ∧ "crypto" ∉ FOREIGN_TERMS ∧ "crypto" ∉ LOCATION_TERMS
      ∧ "crypto" ∉ CALL_TERMS ∧ "crypto" ∉ GRAPH_TERMS
      ∧ ∀ cid ∈ detect_person_ids (str_lower "show me foreign crypto deals with Raj")
          demo_contacts,
          "crypto" ∉ contact_tokens (contact_lookup demo_contacts cid)) :=
  ⟨by decide,
   heuristic_topic_terms_clean "show me foreign crypto deals with Raj" demo_contacts
     "crypto" (by decide)⟩

def plan_topic_the : QueryPlan :=
  ⟨none, none, none, none, none, [], ["the"], none, none, none, none, none⟩

/-- C8, counterexample: a plan whose topics list contains the stop word "the"
puts it straight into the merged topic terms, so the claimed invariant fails
after the plan-merge step. -/
theorem plan_topics_bypass_filters :
    "the" ∈ STOP_WORDS
    ∧ "the" ∈ (merge_plan 0 (heuristic_criteria "hello" [] 5 (none, none) none)
        plan_topic_the [] (fun _ => none) (fun _ => none)).topic_terms := by decide

/-! ### C5 -/

/-- C5, confirmed: stage-1 message results are ordered by the original
similarity rank (with distinct candidate ids, records absent from the rank
map sort after all ranked ones, and ties keep the fetched order), while the
fallback, calls and locations results inherit the store's strict
timestamp-descending order. -/
theorem stage_one_rank_order_and_recency (off : Int) (lookup : Nat → Option Contact)
    (contacts : List Contact) (person_ids : List Nat) (foreign_only : Bool)
    (range : Option Int × Option Int) (time_filter : Option Int)
    (topic_terms : List String) (limit : Nat) (candidates : List VectorRecord)
    (records : List Message) (query_text : String) (fallback_db : List Message)
    (calls : List Call) (locations : List Location)
    (hids : (candidates.map VectorRecord.message_id).Nodup)
    (hfb : fallback_db.Pairwise (fun a b => b.timestamp < a.timestamp))
    (hca : calls.Pairwise (fun a b => b.start_time < a.start_time))
    (hlo : locations.Pairwise (fun a b => b.timestamp < a.timestamp)) :
    (enrich_messages_records off lookup foreign_only range time_filter topic_terms limit
        candidates records).Pairwise
      (fun a b => rank_get (candidates.map VectorRecord.message_id) a.message_id
        ≤ rank_get (candidates.map VectorRecord.message_id) b.message_id)
    ∧ (enrich_messages_records off lookup foreign_only range time_filter topic_terms limit
        candidates records).Pairwise
      (fun a b => a.message_id ∉ candidates.map VectorRecord.message_id
        → b.message_id ∉ candidates.map VectorRecord.message_id)
    ∧ (∀ k : Nat,
        ((enrich_messages_records off lookup foreign_only range time_filter topic_terms limit
            candidates records).filter
          (fun m => rank_get (candidates.map VectorRecord.message_id) m.message_id == k)).Sublist
        (records.filter
          (fun m => rank_get (candidates.map VectorRecord.message_id) m.message_id == k)))
    ∧ (fallback_message_search_records off contacts person_ids foreign_only range time_filter
        topic_terms limit query_text fallback_db).Pairwise
      (fun a b => b.timestamp < a.timestamp)
    ∧ (query_calls_records off lookup foreign_only range time_filter limit calls).Pairwise
      (fun a b => b.start_time < a.start_time)
    ∧ (query_locations_records off range time_filter limit locations).Pairwise
      (fun a b => b.timestamp < a.timestamp) := by
  have hpair : (enrich_messages_records off lookup foreign_only range time_filter topic_terms
      limit candidates records).Pairwise
        (fun a b => rank_get (candidates.map VectorRecord.message_id) a.message_id
          ≤ rank_get (candidates.map VectorRecord.message_id) b.message_id) := by
    by_cases h0 : (candidates.map VectorRecord.message_id).isEmpty
    · simp [enrich_messages_records, h0]
    · have hs : (sort_by_rank (candidates.map VectorRecord.message_id) records).Pairwise
          (fun a b => rank_get (candidates.map VectorRecord.message_id) a.message_id
            ≤ rank_get (candidates.map VectorRecord.message_id) b.message_id) :=
        pairwise_insertionSort
          (fun m => rank_get (candidates.map VectorRecord.message_id) m.message_id) records
      simp only [enrich_messages_records, if_neg h0]
      exact hs.sublist (loop_collect_sublist _ _ _ _)
  refine ⟨hpair, ?_, ?_, ?_, ?_, ?_⟩
  · refine hpair.imp ?_
    intro a b hab ha hb
    have h1 := rank_get_absent ha
    have h2 := rank_get_lt_of_mem hb
    rw [hids.dedup] at h1
    omega
  · intro k
    by_cases h0 : (candidates.map VectorRecord.message_id).isEmpty
    · simp [enrich_messages_records, h0]
    · have hsub : (enrich_messages_records off lookup foreign_only range time_filter
          topic_terms limit candidates records).Sublist
            (sort_by_rank (candidates.map VectorRecord.message_id) records) := by
        simp only [enrich_messages_records, if_neg h0]
        exact loop_collect_sublist _ _ _ _
      have h1 := hsub.filter
        (fun m => rank_get (candidates.map VectorRecord.message_id) m.message_id == k)
      have h2 : (sort_by_rank (candidates.map VectorRecord.message_id) records).filter
          (fun m => rank_get (candidates.map VectorRecord.message_id) m.message_id == k)
          = records.filter
            (fun m => rank_get (candidates.map VectorRecord.message_id) m.message_id == k) :=
        filter_insertionSort
          (fun m => rank_get (candidates.map VectorRecord.message_id) m.message_id) k records
      exact h2 ▸ h1
  · simp only [fallback_message_search_records]
    exact hfb.sublist (loop_collect_sublist _ _ _ _)
  · exact hca.sublist (loop_collect_sublist _ _ _ _)
  · exact hlo.sublist (loop_collect_sublist _ _ _ _)

def demo_message20 : Message := ⟨20, 2, some 1, 3000, "wallet cash", some "chat", []⟩

def demo_candidates : List VectorRecord := [⟨10⟩, ⟨20⟩]

def demo_records : List Message := [demo_message20, demo_message]

/-- C5, witness: the ordering guarantees at a concrete two-candidate
dataset whose store windows are strictly timestamp-descending. -/
theorem stage_one_rank_order_witness :
    (demo_candidates.map VectorRecord.message_id).Nodup
    ∧ demo_records.Pairwise (fun a b => b.timestamp < a.timestamp)
    ∧ [demo_call].Pairwise (fun a b => b.start_time < a.start_time)
    ∧ [demo_location].Pairwise (fun a b => b.timestamp < a.timestamp)
    ∧ ((enrich_messages_records 0 (contact_lookup demo_contacts) false (none, none) none []
          5 demo_candidates demo_records).Pairwise
        (fun a b => rank_get (demo_candidates.map VectorRecord.message_id) a.message_id
          ≤ rank_get (demo_candidates.map VectorRecord.message_id) b.message_id)
      ∧ (enrich_messages_records 0 (contact_lookup demo_contacts) false (none, none) none []
          5 demo_candidates demo_records).Pairwise
        (fun a b => a.message_id ∉ demo_candidates.map VectorRecord.message_id
          → b.message_id ∉ demo_candidates.map VectorRecord.message_id)
      ∧ (∀ k : Nat,
          ((enrich_messages_records 0 (contact_lookup demo_contacts) false (none, none) none []
              5 demo_candidates demo_records).filter
            (fun m => rank_get (demo_candidates.map VectorRecord.message_id) m.message_id
              == k)).Sublist
          (demo_records.filter
            (fun m => rank_get (demo_candidates.map VectorRecord.message_id) m.message_id
              == k)))
      ∧ (fallback_message_search_records 0 demo_contacts [] false (none, none) none [] 5
          "hello" demo_records).Pairwise (fun a b => b.timestamp < a.timestamp)
      ∧ (query_calls_records 0 (contact_lookup demo_contacts) false (none, none) none 5
          [demo_call]).Pairwise (fun a b => b.start_time < a.start_time)
      ∧ (query_locations_records 0 (none, none) none 5 [demo_location]).Pairwise
          (fun a b => b.timestamp < a.timestamp)) :=
  ⟨by decide, by decide, by decide, by decide,
   stage_one_rank_order_and_recency 0 (contact_lookup demo_contacts) demo_contacts [] false
     (none, none) none [] 5 demo_candidates demo_records "hello" demo_records [demo_call]
     [demo_location] (by decide) (by decide) (by decide) (by decide)⟩

end DetectiveX
